import Mathlib

/-!
Verification of the tabletop-mechanics core of the Logos repository.

The development shallowly embeds the Python sources:
  * `backend/agents/tools.py` (`dice_roller`) and
    `src/plugins/trpg_base.py` (`TRPGSystemPlugin.roll_dice`): the dice
    resolver, with the randomness source injected as a function so that
    resolution is deterministic under analysis;
  * `backend/plugins/coc_plugin.py` (`CallOfCthulhuPlugin.handle_mechanics`):
    the percentile skill check;
  * `backend/plugins/bitd_plugin.py` (`BladesInTheDarkPlugin`): the graded
    dice-pool action roll, the resistance roll, the `Clock` tracker and the
    state-update function;
  * `backend/agents/gm_agent.py`: the adversarial validation loop
    (storyteller / rules-lawyer nodes, verdict routing, finalize).

Narrative prompt strings produced for the language model are not modelled;
only the data the rules engine computes is.  Python exceptions are modelled
as explicit error values, and Python reference semantics (shallow `copy`,
in-place mutation of shared sub-objects) is modelled with an explicit heap
in the state-update section.
-/

namespace Logos

/-! ## Dice resolver

`trpg_base.TRPGSystemPlugin.roll_dice` lowers the string, strips spaces and
matches the regex `^(\d*)d(\d+)([+-]\d+)?$` (dice count optional, default 1).
`tools.dice_roller` does the same with the regex `^(\d+)d(\d+)([+-]\d+)?$`
(dice count required).  On a match, both call `random.randint(1, die_size)`
once per die; `randint` raises `ValueError` when `die_size < 1` and at least
one die is rolled.  On no match both return `{"error": ..., "total": 0}`.
-/

/-- ASCII case lowering, as `str.lower` acts on the characters a dice
expression can be built from. -/
def asciiLower (c : Char) : Char :=
  if 'A' ≤ c ∧ c ≤ 'Z' then Char.ofNat (c.toNat + 32) else c

/-- `expr.lower().replace(" ", "")` as a character list. -/
def normalizeExpr (s : String) : List Char :=
  (s.data.map asciiLower).filter (fun c => c ≠ ' ')

/-- `int()` on a digit string. -/
def digitsToNat (ds : List Char) : Nat :=
  ds.foldl (fun n c => n * 10 + (c.toNat - '0'.toNat)) 0

/-- The maximal leading run of decimal digits and the rest (`\d*` against a
literal next character cannot backtrack, so the regex groups are exactly
these maximal runs). -/
def takeDigits : List Char → List Char × List Char
  | [] => ([], [])
  | c :: cs =>
    if c.isDigit then
      let r := takeDigits cs
      (c :: r.1, r.2)
    else ([], c :: cs)

/-- The regex `^(\d*)d(\d+)([+-]\d+)?$` over the normalized characters:
`some (numDice, dieSize, modifier)` on a match (count defaulting to 1 when
the first group is empty), `none` otherwise. -/
def parseDice (s : String) : Option (Nat × Nat × Int) :=
  let p1 := takeDigits (normalizeExpr s)
  match p1.2 with
  | 'd' :: rest2 =>
    let p2 := takeDigits rest2
    if p2.1.isEmpty then none
    else
      let n := if p1.1.isEmpty then 1 else digitsToNat p1.1
      let m := digitsToNat p2.1
      match p2.2 with
      | [] => some (n, m, 0)
      | '+' :: rest4 =>
        let p3 := takeDigits rest4
        if p3.1.isEmpty ∨ ¬ p3.2.isEmpty then none
        else some (n, m, (digitsToNat p3.1 : Int))
      | '-' :: rest4 =>
        let p3 := takeDigits rest4
        if p3.1.isEmpty ∨ ¬ p3.2.isEmpty then none
        else some (n, m, -(digitsToNat p3.1 : Int))
      | _ => none
  | _ => none

/-- The regex `^(\d+)d(\d+)([+-]\d+)?$` of `tools.dice_roller`: as
`parseDice` but the leading dice count is required. -/
def parseDiceTool (s : String) : Option (Nat × Nat × Int) :=
  match (normalizeExpr s).head? with
  | some c => if c.isDigit then parseDice s else none
  | none => none

/-- Result of one call to the dice resolver.  `err` is the
`{"error": message, "total": 0}` dictionary, `exn` a raised `ValueError`
(empty `randint` range), `ok rolls modifier total` the success dictionary. -/
inductive RollOutcome where
  | err (message : String) (total : Int)
  | exn
  | ok (rolls : List Nat) (modifier : Int) (total : Int)
deriving Repr, DecidableEq

/-- The roll loop shared by both resolvers: `rng i` is the value returned by
the `i`-th call of `random.randint(1, dieSize)`. -/
def rollParsed (rng : Nat → Nat) (numDice dieSize : Nat) (modifier : Int) :
    RollOutcome :=
  if numDice ≠ 0 ∧ dieSize = 0 then .exn
  else
    let rolls := (List.range numDice).map rng
    .ok rolls modifier ((rolls.sum : Int) + modifier)

/-- `TRPGSystemPlugin.roll_dice` (`src/plugins/trpg_base.py`). -/
def rollDice (rng : Nat → Nat) (s : String) : RollOutcome :=
  match parseDice s with
  | none => .err ("无效骰子表达式: " ++ String.mk (normalizeExpr s)) 0
  | some (n, m, k) => rollParsed rng n m k

/-- `dice_roller` (`backend/agents/tools.py`). -/
def diceRoller (rng : Nat → Nat) (s : String) : RollOutcome :=
  match parseDiceTool s with
  | none => .err ("Invalid dice expression: " ++ String.mk (normalizeExpr s)) 0
  | some (n, m, k) => rollParsed rng n m k

/-! ### Dice resolver lemmas -/

theorem rollParsed_ok (rng : Nat → Nat) (n m : Nat) (k : Int) (hm : m ≠ 0) :
    rollParsed rng n m k =
      .ok ((List.range n).map rng) k ((((List.range n).map rng).sum : Int) + k) := by
  unfold rollParsed
  simp [hm]

theorem rollDice_parsed (rng : Nat → Nat) (s : String) (n m : Nat) (k : Int)
    (h : parseDice s = some (n, m, k)) (hm : m ≠ 0) :
    rollDice rng s =
      .ok ((List.range n).map rng) k ((((List.range n).map rng).sum : Int) + k) := by
  unfold rollDice
  rw [h]
  exact rollParsed_ok rng n m k hm

theorem diceRoller_parsed (rng : Nat → Nat) (s : String) (n m : Nat) (k : Int)
    (h : parseDiceTool s = some (n, m, k)) (hm : m ≠ 0) :
    diceRoller rng s =
      .ok ((List.range n).map rng) k ((((List.range n).map rng).sum : Int) + k) := by
  unfold diceRoller
  rw [h]
  exact rollParsed_ok rng n m k hm

/-- When the leading dice count is omitted (the normalized expression starts
with the letter `d`), a successful `roll_dice` parse defaults the count
to 1. -/
theorem parseDice_default_count (s : String) (n m : Nat) (k : Int)
    (h : parseDice s = some (n, m, k))
    (hd : (normalizeExpr s).head? = some 'd') : n = 1 := by
  cases hcs : normalizeExpr s with
  | nil => rw [hcs] at hd; cases hd
  | cons c t =>
    rw [hcs] at hd
    simp only [List.head?] at hd
    injection hd with hc
    subst hc
    have hTD : takeDigits ('d' :: t) = ([], 'd' :: t) := rfl
    simp only [parseDice, hcs, hTD, List.isEmpty_nil, if_true] at h
    split at h
    · exact Option.noConfusion h
    · split at h <;> (try split at h) <;> simp_all

/-- `dice_roller` rejects every expression whose dice count is omitted: its
regex requires the leading `\d+`. -/
theorem parseDiceTool_requires_count (s : String)
    (hd : (normalizeExpr s).head? = some 'd') : parseDiceTool s = none := by
  unfold parseDiceTool
  rw [hd]
  rfl

theorem rollDice_err (rng : Nat → Nat) (s : String) (h : parseDice s = none) :
    rollDice rng s = .err ("无效骰子表达式: " ++ String.mk (normalizeExpr s)) 0 := by
  unfold rollDice
  rw [h]

theorem diceRoller_err (rng : Nat → Nat) (s : String)
    (h : parseDiceTool s = none) :
    diceRoller rng s =
      .err ("Invalid dice expression: " ++ String.mk (normalizeExpr s)) 0 := by
  unfold diceRoller
  rw [h]

/-- A successfully parsed expression with die size 0 and at least one die
raises: `random.randint(1, 0)` has an empty range. -/
theorem rollDice_exn (rng : Nat → Nat) (s : String) (n : Nat) (k : Int)
    (h : parseDice s = some (n, 0, k)) (hn : n ≠ 0) :
    rollDice rng s = .exn := by
  unfold rollDice
  rw [h]
  unfold rollParsed
  simp [hn]

/-! ## Outcome categories (`trpg_base.ActionResultType`) -/

inductive ActionResultType where
  | criticalSuccess
  | success
  | partialSuccess
  | failure
  | criticalFailure
deriving Repr, DecidableEq

/-! ## Call of Cthulhu skill check (`coc_plugin.py`, lines 55-92)

The skill check reads the rating, derives the target from the difficulty
string and grades the d100 roll through the if/elif chain of the source.
-/

/-- The difficulty adjustment of `handle_mechanics`: `hard` halves, `extreme`
divides by five, anything else keeps the rating (Python `//`, here `Nat`
division). -/
def cocTarget (difficulty : String) (skillValue : Nat) : Nat :=
  if difficulty = "hard" then skillValue / 2
  else if difficulty = "extreme" then skillValue / 5
  else skillValue

/-- The grading chain of `handle_mechanics` for a skill check: note that the
`roll_value >= 96 and skill_value < 50` fumble test precedes `roll_value ==
100` and tests the raw rating, not the difficulty-adjusted target. -/
def cocSkillCheckOutcome (difficulty : String) (skillValue rollValue : Nat) :
    ActionResultType :=
  let target := cocTarget difficulty skillValue
  if rollValue = 1 then .criticalSuccess
  else if rollValue ≤ target / 5 then .criticalSuccess
  else if rollValue ≤ target / 2 then .success
  else if rollValue ≤ target then .partialSuccess
  else if 96 ≤ rollValue ∧ skillValue < 50 then .criticalFailure
  else if rollValue = 100 then .criticalFailure
  else .failure

/-- The regular-difficulty grading chain exactly as the claim orders its
conditions (first matching condition wins); to be compared with
`cocSkillCheckOutcome`. -/
def cocRegularClaimed (r roll : Nat) : ActionResultType :=
  if roll = 1 then .criticalSuccess
  else if roll ≤ r / 5 then .criticalSuccess
  else if r / 5 < roll ∧ roll ≤ r / 2 then .success
  else if r / 2 < roll ∧ roll ≤ r then .partialSuccess
  else if roll = 100 then .criticalFailure
  else if 96 ≤ roll ∧ r < 50 then .criticalFailure
  else .failure

/-! ## Blades in the Dark (`bitd_plugin.py`)

`handle_mechanics` resolves an action roll: a pool of at most `dice_pool` d6
(the rolled faces are passed in here, the randomness being injected), the
zero-pool rule rolling two dice and taking the lower.  The double-six
critical is only checked on the positive-pool path.  `max`/`min` on an empty
roll list would raise, hence the `Option`.
-/

/-- Python `max(rolls)` (defined for nonempty lists). -/
def maxRoll : List Nat → Nat
  | [] => 0
  | r :: rs => rs.foldl Nat.max r

/-- Python `min(rolls)` (defined for nonempty lists). -/
def minRoll : List Nat → Nat
  | [] => 0
  | r :: rs => rs.foldl Nat.min r

/-- `rolls.count(6)`. -/
def countSixes (rolls : List Nat) : Nat := rolls.count 6

/-- The standardized result container (`trpg_base.MechanicsResult`), narrative
prompt text omitted.  `stateChanges` values are reduced to what the plugins
store there. -/
inductive PyVal where
  | int (n : Int)
  | str (s : String)
  | bool (b : Bool)
  | list (elems : List PyVal)
deriving Repr

structure MechanicsResult where
  resultType : ActionResultType
  stateChanges : List (String × PyVal)
  resourceCosts : List (String × Int)
  triggeredEffects : List String
deriving Repr

/-- The non-critical grading of the action roll: 6 full success, 4-5 partial,
1-3 failure; every branch sets `stress_cost = 0` and returns
`resource_costs = {"stress": 0}`. -/
def bitdGrade (action : String) (rolls : List Nat) (v : Nat) : MechanicsResult :=
  let rt : ActionResultType :=
    if v = 6 then .success else if 4 ≤ v then .partialSuccess else .failure
  { resultType := rt
    stateChanges :=
      [("last_roll", .list (rolls.map (fun r => PyVal.int (r : Int)))),
       ("last_action", .str action)]
    resourceCosts := [("stress", 0)]
    triggeredEffects := [] }

/-- `BladesInTheDarkPlugin.handle_mechanics`, action-roll path.  `rolls` are
the faces produced by `roll_dice`: two dice when `dicePool ≤ 0`, otherwise
`dicePool` dice.  `none` models the `max`/`min` call on an empty list
raising. -/
def bitdActionRoll (action : String) (dicePool : Int) (rolls : List Nat) :
    Option MechanicsResult :=
  match rolls with
  | [] => none
  | _ :: _ =>
    if dicePool ≤ 0 then
      some (bitdGrade action rolls (minRoll rolls))
    else if 2 ≤ countSixes rolls then
      some
        { resultType := .criticalSuccess
          stateChanges :=
            [("last_roll", .list (rolls.map (fun r => PyVal.int (r : Int)))),
             ("crit", .bool true)]
          resourceCosts := []
          triggeredEffects := ["暴击加成"] }
    else some (bitdGrade action rolls (maxRoll rolls))

/-- `BladesInTheDarkPlugin.resistance_roll`: the stress cost it computes from
the rolled faces (`none` when the empty `max` would raise, i.e. a rating of
zero dice). -/
def resistanceRollCost (rolls : List Nat) : Option Int :=
  match rolls with
  | [] => none
  | _ :: _ =>
    if 2 ≤ countSixes rolls then some (-1)
    else if maxRoll rolls = 6 then some 0
    else some (6 - (maxRoll rolls : Int))

/-! ### Dice-pool lemmas -/

theorem le_foldl_max (rs : List Nat) (acc : Nat) : acc ≤ rs.foldl Nat.max acc := by
  induction rs generalizing acc with
  | nil => exact Nat.le_refl acc
  | cons a l ih => exact Nat.le_trans (Nat.le_max_left acc a) (ih (Nat.max acc a))

theorem mem_le_foldl_max (rs : List Nat) (acc x : Nat) (hx : x ∈ rs) :
    x ≤ rs.foldl Nat.max acc := by
  induction rs generalizing acc with
  | nil => cases hx
  | cons a l ih =>
    rcases List.mem_cons.mp hx with h | h
    · subst h
      exact Nat.le_trans (Nat.le_max_right acc x) (le_foldl_max l (Nat.max acc x))
    · exact ih (Nat.max acc a) h

/-- Every rolled face is bounded by the highest. -/
theorem le_maxRoll (l : List Nat) (x : Nat) (hx : x ∈ l) : x ≤ maxRoll l := by
  cases l with
  | nil => cases hx
  | cons r rs =>
    rcases List.mem_cons.mp hx with h | h
    · subst h
      exact le_foldl_max rs x
    · exact mem_le_foldl_max rs r x h

/-- A pool whose highest face is below 6 holds no six at all. -/
theorem countSixes_eq_zero (l : List Nat) (h : maxRoll l < 6) :
    countSixes l = 0 := by
  unfold countSixes
  refine List.count_eq_zero.mpr (fun hmem => ?_)
  exact absurd (le_maxRoll l 6 hmem) (by omega)

/-! ## Progress clock (`bitd_plugin.py`, `Clock`) -/

structure Clock where
  name : String
  segments : Int
  filled : Int := 0
  clockType : String := "progress"
deriving Repr, DecidableEq

/-- `Clock.tick`: `filled = min(segments, filled + amount)`, returning the new
clock and `filled >= segments`. -/
def Clock.tick (c : Clock) (amount : Int) : Clock × Bool :=
  let f := min c.segments (c.filled + amount)
  ({ c with filled := f }, decide (c.segments ≤ f))

/-! ## Adversarial validation loop (`gm_agent.py`)

The graph cycle `storyteller -> rules_lawyer -> route_by_verdict` with the
`finalize` node.  Only the four `GameState` fields the loop touches are
modelled.  The two language-model collaborators are injected: `draftOf n` is
the prose the storyteller produces on its `n`-th invocation of a turn, and
`check draft` is the rules-lawyer verdict text for a draft.
-/

/-- Python `str.startswith`, acting on the character sequences. -/
def strStartsWith (s pre : String) : Bool := pre.data.isPrefixOf s.data

structure GState where
  messages : List String
  draftNarrative : String
  lawyerFeedback : String
  adversarialIteration : Nat
deriving Repr, DecidableEq

/-- The `storyteller` node: stores the fresh draft and increments
`adversarial_iteration`. -/
def storytellerStep (draftOf : Nat → String) (s : GState) : GState :=
  { s with
    draftNarrative := draftOf s.adversarialIteration
    adversarialIteration := s.adversarialIteration + 1 }

/-- The `rules_lawyer` node: an empty draft is auto-`APPROVED`, otherwise the
checker's raw text becomes `lawyer_feedback`. -/
def rulesLawyerStep (check : String → String) (s : GState) : GState :=
  if s.draftNarrative = "" then { s with lawyerFeedback := "APPROVED" }
  else { s with lawyerFeedback := check s.draftNarrative }

/-- `route_by_verdict`: the iteration cap is tested first, then the verdict
text; anything that does not start with `APPROVED` loops back to the
storyteller. -/
def routeByVerdict (s : GState) : String :=
  if 3 ≤ s.adversarialIteration then "finalize"
  else if strStartsWith s.lawyerFeedback "APPROVED" then "finalize"
  else "storyteller"

/-- The `finalize` node: appends the draft to the messages and resets the
draft, the feedback and the iteration counter. -/
def finalizeStep (s : GState) : GState :=
  { messages :=
      if s.draftNarrative ≠ "" then s.messages ++ [s.draftNarrative]
      else s.messages
    draftNarrative := ""
    lawyerFeedback := ""
    adversarialIteration := 0 }

/-- One drafting/checking cycle. -/
def advCycle (draftOf : Nat → String) (check : String → String)
    (s : GState) : GState :=
  rulesLawyerStep check (storytellerStep draftOf s)

/-- The loop as the graph drives it from the storyteller entry: cycle, route,
finalize or loop.  Returns the state after `finalize` and the number of
drafting/checking cycles run.  `fuel` only bounds the recursion: the routing
cap finalizes at the latest once `adversarial_iteration` reaches 3, so for
a turn entered at iteration 0 any `fuel ≥ 3` yields the graph's behaviour
(`runAdvLoop_fuel_indep` below). -/
def runAdvLoop (draftOf : Nat → String) (check : String → String) :
    Nat → GState → GState × Nat
  | 0, s => (s, 0)
  | fuel + 1, s =>
    let s1 := advCycle draftOf check s
    if routeByVerdict s1 = "finalize" then (finalizeStep s1, 1)
    else
      let r := runAdvLoop draftOf check fuel s1
      (r.1, r.2 + 1)

theorem advCycle_iteration (draftOf : Nat → String) (check : String → String)
    (s : GState) :
    (advCycle draftOf check s).adversarialIteration =
      s.adversarialIteration + 1 := by
  unfold advCycle rulesLawyerStep storytellerStep
  split <;> rfl

theorem advCycle_draft (draftOf : Nat → String) (check : String → String)
    (s : GState) :
    (advCycle draftOf check s).draftNarrative = draftOf s.adversarialIteration := by
  unfold advCycle rulesLawyerStep storytellerStep
  split <;> rfl

theorem advCycle_messages (draftOf : Nat → String) (check : String → String)
    (s : GState) :
    (advCycle draftOf check s).messages = s.messages := by
  unfold advCycle rulesLawyerStep storytellerStep
  split <;> rfl

theorem advCycle_feedback (draftOf : Nat → String) (check : String → String)
    (s : GState) (h : draftOf s.adversarialIteration ≠ "") :
    (advCycle draftOf check s).lawyerFeedback =
      check (draftOf s.adversarialIteration) := by
  unfold advCycle rulesLawyerStep storytellerStep
  simp [h]

/-- At iteration 3 or beyond the route is `finalize` whatever the verdict. -/
theorem routeByVerdict_cap (s : GState) (h : 3 ≤ s.adversarialIteration) :
    routeByVerdict s = "finalize" := by
  unfold routeByVerdict
  simp [h]

/-- The loop finalizes on the first cycle whose verdict starts with
`APPROVED`, and loops otherwise while under the cap. -/
theorem runAdvLoop_step (draftOf : Nat → String) (check : String → String)
    (fuel : Nat) (s : GState) :
    runAdvLoop draftOf check (fuel + 1) s =
      if routeByVerdict (advCycle draftOf check s) = "finalize" then
        (finalizeStep (advCycle draftOf check s), 1)
      else
        ((runAdvLoop draftOf check fuel (advCycle draftOf check s)).1,
         (runAdvLoop draftOf check fuel (advCycle draftOf check s)).2 + 1) := rfl

/-! ## Python object semantics for the state-update functions

`process_state_update` in both plugins begins with `current_state.copy()`, a
shallow copy: the new top-level dictionary shares every nested object
(`player_stats`, `clocks`, `active_effects`, the trauma list) with the
caller's dictionary, and the function then writes through those shared
references.  To reason about this the functions are translated over an
explicit heap of Python objects: addresses, a store, and the dict/list
primitives the source uses (`copy`, `in`, `get`, subscript assignment,
`append`, `extend`).  A `MechanicsResult` enters as its two read-only
mappings plus the address of its (mutable) `triggered_effects` list.
-/

abbrev Addr := Nat

inductive HVal where
  | int (n : Int)
  | str (s : String)
  | bool (b : Bool)
  | list (elems : List Addr)
  | dict (entries : List (String × Addr))
deriving Repr, DecidableEq

structure Heap where
  store : List (Addr × HVal)
  next : Addr
deriving Repr, DecidableEq

def Heap.get (h : Heap) (a : Addr) : Option HVal :=
  (h.store.find? (fun p => p.1 == a)).map (fun p => p.2)

def Heap.set (h : Heap) (a : Addr) (v : HVal) : Heap :=
  { h with store := h.store.map (fun p => if p.1 == a then (a, v) else p) }

def Heap.alloc (h : Heap) (v : HVal) : Heap × Addr :=
  ({ store := h.store ++ [(h.next, v)], next := h.next + 1 }, h.next)

def Heap.dictEntries (h : Heap) (a : Addr) : Option (List (String × Addr)) :=
  match h.get a with
  | some (.dict es) => some es
  | _ => none

/-- `key in d`. -/
def Heap.dictMem (h : Heap) (a : Addr) (key : String) : Option Bool :=
  (h.dictEntries a).map (fun es => es.any (fun e => e.1 == key))

/-- `d.get(key)` distinguishing a missing key (`some none`) from a
non-dictionary address (`none`). -/
def Heap.dictFind (h : Heap) (a : Addr) (key : String) : Option (Option Addr) :=
  (h.dictEntries a).map (fun es => (es.find? (fun e => e.1 == key)).map (fun e => e.2))

/-- `d[key]`, a `KeyError` collapsing to failure. -/
def Heap.dictGet (h : Heap) (a : Addr) (key : String) : Option Addr :=
  match h.dictFind a key with
  | some (some v) => some v
  | _ => none

/-- `d[key] = v`: in-place update of the dictionary object at `a`. -/
def Heap.dictSet (h : Heap) (a : Addr) (key : String) (v : Addr) : Option Heap :=
  (h.dictEntries a).map (fun es =>
    h.set a (.dict
      (if es.any (fun e => e.1 == key)
       then es.map (fun e => if e.1 == key then (key, v) else e)
       else es ++ [(key, v)])))

/-- `d.copy()`: a fresh top-level dictionary sharing every value
reference. -/
def Heap.dictCopy (h : Heap) (a : Addr) : Option (Heap × Addr) :=
  (h.dictEntries a).map (fun es => h.alloc (.dict es))

/-- `l.append(v)`: in-place extension of the list object at `a`. -/
def Heap.listAppend (h : Heap) (a : Addr) (v : Addr) : Option Heap :=
  match h.get a with
  | some (.list es) => some (h.set a (.list (es ++ [v])))
  | _ => none

/-- `l.extend(vs)`. -/
def Heap.listExtend (h : Heap) (a : Addr) (vs : List Addr) : Option Heap :=
  match h.get a with
  | some (.list es) => some (h.set a (.list (es ++ vs)))
  | _ => none

def Heap.getInt (h : Heap) (a : Addr) : Option Int :=
  match h.get a with
  | some (.int n) => some n
  | _ => none

def Heap.getList (h : Heap) (a : Addr) : Option (List Addr) :=
  match h.get a with
  | some (.list es) => some es
  | _ => none

/-- The `MechanicsResult` as the state-update functions consume it:
`resource_costs` and `state_changes` are read-only (values of
`state_changes` are object references), `triggered_effects` is the address
of the result's own mutable list. -/
structure MRRef where
  resourceCosts : List (String × Int)
  stateChanges : List (String × Addr)
  triggeredEffects : Addr
deriving Repr, DecidableEq

/-- `key[6:]` for the `clock_<name>` keys. -/
def clockTail (key : String) : String := String.mk (key.data.drop 6)

/-- `if "player_stats" not in new_state: new_state["player_stats"] = {}` —
the identical opening statement of both plugins' `process_state_update`. -/
def ensurePlayerStats (h : Heap) (ns : Addr) : Option Heap := do
  let mem ← h.dictMem ns "player_stats"
  if mem then some h
  else
    let ra := h.alloc (.dict [])
    ra.1.dictSet ns "player_stats" ra.2

/-- The two arms of `if new_stress >= 9` in the heist plugin: on trauma,
stress is reset to 0, a trauma label is appended to the (created-on-demand)
trauma list, and the consumed result's `triggered_effects` list is mutated;
otherwise the new stress value is stored. -/
def bitdStressBranch (h : Heap) (ps effects : Addr) (newStress : Int) :
    Option Heap :=
  if 9 ≤ newStress then do
    let r0 := h.alloc (.int 0)
    let h4 ← r0.1.dictSet ps "stress" r0.2
    let tmem ← h4.dictMem ps "trauma"
    let h5 ←
      if tmem then some h4
      else
        let r1 := h4.alloc (.list [])
        r1.1.dictSet ps "trauma" r1.2
    let tr ← h5.dictGet ps "trauma"
    let r2 := h5.alloc (.str "待定创伤")
    let h6 ← r2.1.listAppend tr r2.2
    let r3 := h6.alloc (.str "获得创伤")
    r3.1.listAppend effects r3.2
  else do
    let r0 := h.alloc (.int newStress)
    r0.1.dictSet ps "stress" r0.2

/-- `if "stress" in mechanics_result.resource_costs: ...` of the heist
plugin: read the current stress (default 0), add the cost and take the
trauma branch. -/
def bitdApplyStressCost (h : Heap) (ns : Addr) (mr : MRRef) : Option Heap :=
  match (mr.resourceCosts.find? (fun p => p.1 == "stress")).map (fun p => p.2) with
  | none => some h
  | some c => do
    let ps ← h.dictGet ns "player_stats"
    let curStress ←
      match ← h.dictFind ps "stress" with
      | some a => h.getInt a
      | none => some 0
    bitdStressBranch h ps mr.triggeredEffects (curStress + c)

/-- `for key, value in mechanics_result.state_changes.items(): ...` of the
heist plugin: `clock_<name>` keys are routed into the (created-on-demand)
`clocks` mapping, every other key is written into `player_stats`. -/
def bitdApplyChanges (h : Heap) (ns : Addr) (mr : MRRef) : Option Heap :=
  mr.stateChanges.foldlM (fun hAcc kv => do
      if strStartsWith kv.1 "clock_" then do
        let cmem ← hAcc.dictMem ns "clocks"
        let hB ←
          if cmem then some hAcc
          else
            let rb := hAcc.alloc (.dict [])
            rb.1.dictSet ns "clocks" rb.2
        let ck ← hB.dictGet ns "clocks"
        hB.dictSet ck (clockTail kv.1) kv.2
      else do
        let ps ← hAcc.dictGet ns "player_stats"
        hAcc.dictSet ps kv.1 kv.2) h

/-- `BladesInTheDarkPlugin.process_state_update`, statement by statement over
the heap. -/
def bitdProcessStateUpdate (h0 : Heap) (cur : Addr) (mr : MRRef) :
    Option (Heap × Addr) := do
  -- new_state = current_state.copy()
  let r ← h0.dictCopy cur
  let h2 ← ensurePlayerStats r.1 r.2
  let h3 ← bitdApplyStressCost h2 r.2 mr
  let h4 ← bitdApplyChanges h3 r.2 mr
  return (h4, r.2)

/-- `for key, value in state_changes.items()` of the horror plugin: every
key (the special-cased `sanity` included) is written into
`player_stats`. -/
def cocApplyChanges (h : Heap) (ns : Addr) (mr : MRRef) : Option Heap :=
  mr.stateChanges.foldlM (fun hAcc kv => do
      let ps ← hAcc.dictGet ns "player_stats"
      hAcc.dictSet ps kv.1 kv.2) h

/-- `if mechanics_result.triggered_effects:` of the horror plugin: extend
the (created-on-demand) `active_effects` list with the effect
references. -/
def cocRecordEffects (h : Heap) (ns : Addr) (mr : MRRef) :
    Option (Heap × Addr) := do
  let effs ← h.getList mr.triggeredEffects
  if effs.isEmpty then return (h, ns)
  else do
    let amem ← h.dictMem ns "active_effects"
    let h4 ←
      if amem then some h
      else
        let rb := h.alloc (.list [])
        rb.1.dictSet ns "active_effects" rb.2
    let ae ← h4.dictGet ns "active_effects"
    let h5 ← h4.listExtend ae effs
    return (h5, ns)

/-- `CallOfCthulhuPlugin.process_state_update` over the heap. -/
def cocProcessStateUpdate (h0 : Heap) (cur : Addr) (mr : MRRef) :
    Option (Heap × Addr) := do
  let r ← h0.dictCopy cur
  let h2 ← ensurePlayerStats r.1 r.2
  let h3 ← cocApplyChanges h2 r.2 mr
  cocRecordEffects h3 r.2 mr

/-! ### Concrete object graphs for the state-update functions

`layoutA` is the canonical caller state `{"player_stats": {"stress": s}}`
with a fresh `triggered_effects` list at address 3; `layoutB` additionally
holds an existing trauma list with one label; `layoutC` is a horror-system
state `{"player_stats": {"sanity": 60}}` with a sanity state-change.  The
stress and cost payloads stay symbolic; the run lemmas below evaluate the
update on these graphs for every `s` and `c`.
-/

def layoutA (s : Int) : Heap :=
  ⟨[(0, .int s), (1, .dict [("stress", 0)]), (2, .dict [("player_stats", 1)]),
    (3, .list [])], 4⟩

/-- A result carrying `resource_costs = {"stress": c}`, no state changes and
the effects list of `layoutA`/`layoutB`. -/
def mrStress (c : Int) : MRRef := ⟨[("stress", c)], [], 3⟩

/-- `layoutA` right after `new_state = current_state.copy()`: the fresh
top-level dictionary at address 4 shares the `player_stats` object 1. -/
def copiedA (s : Int) : Heap :=
  ⟨[(0, .int s), (1, .dict [("stress", 0)]), (2, .dict [("player_stats", 1)]),
    (3, .list []), (4, .dict [("player_stats", 1)])], 5⟩

/-- The final heap of the trauma branch on `layoutA`. -/
def ehTraumaA (s : Int) : Heap :=
  ⟨[(0, .int s), (1, .dict [("stress", 5), ("trauma", 6)]),
    (2, .dict [("player_stats", 1)]), (3, .list [8]),
    (4, .dict [("player_stats", 1)]), (5, .int 0), (6, .list [7]),
    (7, .str "待定创伤"), (8, .str "获得创伤")], 9⟩

/-- The final heap of the plain branch on `layoutA`. -/
def ehPlainA (s c : Int) : Heap :=
  ⟨[(0, .int s), (1, .dict [("stress", 5)]), (2, .dict [("player_stats", 1)]),
    (3, .list []), (4, .dict [("player_stats", 1)]), (5, .int (s + c))], 6⟩

theorem stressBranchA_pos (s c : Int) (h : 9 ≤ s + c) :
    bitdStressBranch (copiedA s) 1 3 (s + c) = some (ehTraumaA s) := by
  unfold bitdStressBranch
  rw [if_pos h]
  rfl

theorem stressBranchA_neg (s c : Int) (h : ¬ 9 ≤ s + c) :
    bitdStressBranch (copiedA s) 1 3 (s + c) = some (ehPlainA s c) := by
  unfold bitdStressBranch
  rw [if_neg h]
  rfl

theorem bitd_assemblyA (s c : Int) :
    bitdProcessStateUpdate (layoutA s) 2 (mrStress c) =
      (bitdStressBranch (copiedA s) 1 3 (s + c)).bind
        (fun h3 => (bitdApplyChanges h3 4 (mrStress c)).map (fun h4 => (h4, 4))) := rfl

/-- Full evaluation of the heist state update on `layoutA`. -/
theorem bitd_runA (s c : Int) :
    bitdProcessStateUpdate (layoutA s) 2 (mrStress c) =
      some ((if 9 ≤ s + c then ehTraumaA s else ehPlainA s c), 4) := by
  rw [bitd_assemblyA]
  rcases le_or_lt 9 (s + c) with h | h
  · rw [stressBranchA_pos s c h, if_pos h]
    rfl
  · rw [stressBranchA_neg s c (not_le.mpr h), if_neg (not_le.mpr h)]
    rfl

def layoutB (s : Int) : Heap :=
  ⟨[(0, .int s), (1, .str "旧创伤"), (2, .list [1]),
    (3, .dict [("stress", 0), ("trauma", 2)]), (4, .dict [("player_stats", 3)]),
    (5, .list [])], 6⟩

def mrStressB (c : Int) : MRRef := ⟨[("stress", c)], [], 5⟩

def copiedB (s : Int) : Heap :=
  ⟨[(0, .int s), (1, .str "旧创伤"), (2, .list [1]),
    (3, .dict [("stress", 0), ("trauma", 2)]), (4, .dict [("player_stats", 3)]),
    (5, .list []), (6, .dict [("player_stats", 3)])], 7⟩

def ehTraumaB (s : Int) : Heap :=
  ⟨[(0, .int s), (1, .str "旧创伤"), (2, .list [1, 8]),
    (3, .dict [("stress", 7), ("trauma", 2)]), (4, .dict [("player_stats", 3)]),
    (5, .list [9]), (6, .dict [("player_stats", 3)]), (7, .int 0),
    (8, .str "待定创伤"), (9, .str "获得创伤")], 10⟩

def ehPlainB (s c : Int) : Heap :=
  ⟨[(0, .int s), (1, .str "旧创伤"), (2, .list [1]),
    (3, .dict [("stress", 7), ("trauma", 2)]), (4, .dict [("player_stats", 3)]),
    (5, .list []), (6, .dict [("player_stats", 3)]), (7, .int (s + c))], 8⟩

theorem stressBranchB_pos (s c : Int) (h : 9 ≤ s + c) :
    bitdStressBranch (copiedB s) 3 5 (s + c) = some (ehTraumaB s) := by
  unfold bitdStressBranch
  rw [if_pos h]
  rfl

theorem stressBranchB_neg (s c : Int) (h : ¬ 9 ≤ s + c) :
    bitdStressBranch (copiedB s) 3 5 (s + c) = some (ehPlainB s c) := by
  unfold bitdStressBranch
  rw [if_neg h]
  rfl

theorem bitd_assemblyB (s c : Int) :
    bitdProcessStateUpdate (layoutB s) 4 (mrStressB c) =
      (bitdStressBranch (copiedB s) 3 5 (s + c)).bind
        (fun h3 => (bitdApplyChanges h3 6 (mrStressB c)).map (fun h4 => (h4, 6))) := rfl

/-- Full evaluation of the heist state update on `layoutB` (a trauma list
already present). -/
theorem bitd_runB (s c : Int) :
    bitdProcessStateUpdate (layoutB s) 4 (mrStressB c) =
      some ((if 9 ≤ s + c then ehTraumaB s else ehPlainB s c), 6) := by
  rw [bitd_assemblyB]
  rcases le_or_lt 9 (s + c) with h | h
  · rw [stressBranchB_pos s c h, if_pos h]
    rfl
  · rw [stressBranchB_neg s c (not_le.mpr h), if_neg (not_le.mpr h)]
    rfl

/-- A horror-system caller state `{"player_stats": {"sanity": 60}}`; address
3 holds the new sanity value 48 referenced by `state_changes`, address 4 the
result's empty `triggered_effects`. -/
def layoutC : Heap :=
  ⟨[(0, .int 60), (1, .dict [("sanity", 0)]), (2, .dict [("player_stats", 1)]),
    (3, .int 48), (4, .list [])], 5⟩

def mrSanity : MRRef := ⟨[], [("sanity", 3)], 4⟩

/-! ### Views into the object graphs -/

/-- `state["player_stats"]["stress"]` read from the root dictionary at
`root`. -/
def stressView (h : Heap) (root : Addr) : Option Int := do
  let ps ← h.dictGet root "player_stats"
  let a ← h.dictGet ps "stress"
  h.getInt a

/-- `state["player_stats"]["sanity"]`. -/
def sanityView (h : Heap) (root : Addr) : Option Int := do
  let ps ← h.dictGet root "player_stats"
  let a ← h.dictGet ps "sanity"
  h.getInt a

/-- The string elements of the list object at `a`. -/
def strListView (h : Heap) (a : Addr) : Option (List String) := do
  let es ← h.getList a
  es.mapM (fun b =>
    match h.get b with
    | some (.str x) => some x
    | _ => none)

/-- `state["player_stats"].get("trauma")`: `some none` when the key is
absent, `some (some labels)` when present. -/
def traumaView (h : Heap) (root : Addr) : Option (Option (List String)) := do
  let ps ← h.dictGet root "player_stats"
  let f ← h.dictFind ps "trauma"
  match f with
  | none => some none
  | some tr => do
    let ss ← strListView h tr
    some (some ss)

/-- With any fuel of at least 3, a turn entered at iteration 0 behaves as
with fuel exactly 3: the routing cap finalizes by the third cycle, so the
fuel bound is never the deciding factor. -/
theorem runAdvLoop_fuel_indep (draftOf : Nat → String) (check : String → String)
    (fuel : Nat) (hf : 3 ≤ fuel) (s : GState) (h0 : s.adversarialIteration = 0) :
    runAdvLoop draftOf check fuel s = runAdvLoop draftOf check 3 s := by
  obtain ⟨k, rfl⟩ : ∃ k, fuel = k + 3 := ⟨fuel - 3, by omega⟩
  have h1 := advCycle_iteration draftOf check s
  have h2 := advCycle_iteration draftOf check (advCycle draftOf check s)
  have h3 := advCycle_iteration draftOf check
    (advCycle draftOf check (advCycle draftOf check s))
  rw [h0] at h1; rw [h1] at h2; rw [h2] at h3
  show runAdvLoop draftOf check (k + 1 + 1 + 1) s = runAdvLoop draftOf check (0 + 1 + 1 + 1) s
  rw [runAdvLoop_step draftOf check (k + 1 + 1) s,
      runAdvLoop_step draftOf check (0 + 1 + 1) s]
  by_cases r1 : routeByVerdict (advCycle draftOf check s) = "finalize"
  · simp [r1]
  · simp only [r1, reduceIte]
    rw [runAdvLoop_step draftOf check (k + 1) (advCycle draftOf check s),
        runAdvLoop_step draftOf check (0 + 1) (advCycle draftOf check s)]
    by_cases r2 : routeByVerdict (advCycle draftOf check (advCycle draftOf check s)) = "finalize"
    · simp [r2]
    · simp only [r2, reduceIte]
      rw [runAdvLoop_step draftOf check k
            (advCycle draftOf check (advCycle draftOf check s)),
          runAdvLoop_step draftOf check 0
            (advCycle draftOf check (advCycle draftOf check s))]
      rw [routeByVerdict_cap
        (advCycle draftOf check (advCycle draftOf check (advCycle draftOf check s)))
        (by omega)]
      simp

theorem storyteller_ne_finalize : ¬ ("storyteller" = "finalize") := by decide

/-- A checker that never approves: the loop runs exactly three
drafting/checking cycles and then force-finalizes; `finalize` resets the
draft, the feedback and the iteration counter, leaving only the last draft
in the messages. -/
theorem runAdvLoop_objecting (draftOf : Nat → String) (check : String → String)
    (fuel : Nat) (hf : 3 ≤ fuel) (ms : List String) (d f : String)
    (hd : ∀ n, draftOf n ≠ "")
    (hc : ∀ n, ¬ strStartsWith (check (draftOf n)) "APPROVED" = true) :
    runAdvLoop draftOf check fuel ⟨ms, d, f, 0⟩ =
      (⟨ms ++ [draftOf 2], "", "", 0⟩, 3) := by
  rw [runAdvLoop_fuel_indep draftOf check fuel hf _ rfl]
  have e1 : advCycle draftOf check ⟨ms, d, f, 0⟩ =
      ⟨ms, draftOf 0, check (draftOf 0), 1⟩ := by
    simp [advCycle, storytellerStep, rulesLawyerStep, hd 0]
  have e2 : advCycle draftOf check ⟨ms, draftOf 0, check (draftOf 0), 1⟩ =
      ⟨ms, draftOf 1, check (draftOf 1), 2⟩ := by
    simp [advCycle, storytellerStep, rulesLawyerStep, hd 1]
  have e3 : advCycle draftOf check ⟨ms, draftOf 1, check (draftOf 1), 2⟩ =
      ⟨ms, draftOf 2, check (draftOf 2), 3⟩ := by
    simp [advCycle, storytellerStep, rulesLawyerStep, hd 2]
  show runAdvLoop draftOf check (0 + 1 + 1 + 1) _ = _
  rw [runAdvLoop_step, e1]
  rw [show routeByVerdict ⟨ms, draftOf 0, check (draftOf 0), 1⟩ = "storyteller" by
    simp [routeByVerdict, hc 0]]
  rw [if_neg storyteller_ne_finalize]
  rw [runAdvLoop_step, e2]
  rw [show routeByVerdict ⟨ms, draftOf 1, check (draftOf 1), 2⟩ = "storyteller" by
    simp [routeByVerdict, hc 1]]
  rw [if_neg storyteller_ne_finalize]
  rw [runAdvLoop_step, e3]
  rw [show routeByVerdict ⟨ms, draftOf 2, check (draftOf 2), 3⟩ = "finalize" by
    simp [routeByVerdict]]
  simp [finalizeStep, hd 2]

/-- A checker whose first approval comes on cycle `i ≤ 3`: the loop
finalizes after exactly `i` cycles. -/
theorem runAdvLoop_first_approval (draftOf : Nat → String)
    (check : String → String) (fuel : Nat) (hf : 3 ≤ fuel)
    (ms : List String) (d f : String) (i : Nat) (hi1 : 1 ≤ i) (hi3 : i ≤ 3)
    (hd : ∀ n, draftOf n ≠ "")
    (happ : strStartsWith (check (draftOf (i - 1))) "APPROVED" = true)
    (hobj : ∀ j, j < i - 1 → ¬ strStartsWith (check (draftOf j)) "APPROVED" = true) :
    runAdvLoop draftOf check fuel ⟨ms, d, f, 0⟩ =
      (⟨ms ++ [draftOf (i - 1)], "", "", 0⟩, i) := by
  rw [runAdvLoop_fuel_indep draftOf check fuel hf _ rfl]
  have e1 : advCycle draftOf check ⟨ms, d, f, 0⟩ =
      ⟨ms, draftOf 0, check (draftOf 0), 1⟩ := by
    simp [advCycle, storytellerStep, rulesLawyerStep, hd 0]
  have e2 : advCycle draftOf check ⟨ms, draftOf 0, check (draftOf 0), 1⟩ =
      ⟨ms, draftOf 1, check (draftOf 1), 2⟩ := by
    simp [advCycle, storytellerStep, rulesLawyerStep, hd 1]
  have e3 : advCycle draftOf check ⟨ms, draftOf 1, check (draftOf 1), 2⟩ =
      ⟨ms, draftOf 2, check (draftOf 2), 3⟩ := by
    simp [advCycle, storytellerStep, rulesLawyerStep, hd 2]
  show runAdvLoop draftOf check (0 + 1 + 1 + 1) _ = _
  interval_cases i
  · rw [runAdvLoop_step, e1]
    rw [show routeByVerdict ⟨ms, draftOf 0, check (draftOf 0), 1⟩ = "finalize" by
      simp [routeByVerdict, happ]]
    simp [finalizeStep, hd 0]
  · rw [runAdvLoop_step, e1]
    rw [show routeByVerdict ⟨ms, draftOf 0, check (draftOf 0), 1⟩ = "storyteller" by
      simp [routeByVerdict, hobj 0 (by omega)]]
    rw [if_neg storyteller_ne_finalize]
    rw [runAdvLoop_step, e2]
    rw [show routeByVerdict ⟨ms, draftOf 1, check (draftOf 1), 2⟩ = "finalize" by
      simp [routeByVerdict, happ]]
    simp [finalizeStep, hd 1]
  · rw [runAdvLoop_step, e1]
    rw [show routeByVerdict ⟨ms, draftOf 0, check (draftOf 0), 1⟩ = "storyteller" by
      simp [routeByVerdict, hobj 0 (by omega)]]
    rw [if_neg storyteller_ne_finalize]
    rw [runAdvLoop_step, e2]
    rw [show routeByVerdict ⟨ms, draftOf 1, check (draftOf 1), 2⟩ = "storyteller" by
      simp [routeByVerdict, hobj 1 (by omega)]]
    rw [if_neg storyteller_ne_finalize]
    rw [runAdvLoop_step, e3]
    rw [show routeByVerdict ⟨ms, draftOf 2, check (draftOf 2), 3⟩ = "finalize" by
      simp [routeByVerdict]]
    simp [finalizeStep, hd 2]

/-! ## The claims -/

theorem coc_target_regular (r : Nat) : cocTarget "regular" r = r := rfl

/-- C4: for a regular-difficulty horror-system skill check with rating `R`
and d100 roll `r`, the source's grading chain agrees everywhere with the
claim's ordered condition list (`r = 1` critical success; `r ≤ R//5`
critical success; `R//5 < r ≤ R//2` success; `R//2 < r ≤ R` partial
success; `r = 100` critical failure; `r ≥ 96` with `R < 50` critical
failure; otherwise failure), all thresholds by integer floor division.  The
two chains test the critical-failure conditions in opposite orders, but
both arms return the same outcome, so they are equal on every input. -/
theorem coc_regular_check_matches_claim (r roll : Nat) :
    cocSkillCheckOutcome "regular" r roll = cocRegularClaimed r roll := by
  simp only [cocSkillCheckOutcome, cocRegularClaimed, coc_target_regular]
  split_ifs <;> first | rfl | omega

/-- C6: the resistance roll refunds one stress on a double six, costs
nothing when the highest face is 6, and costs `6 - h` for any other highest
face `h`. -/
theorem resistance_roll_cost_spec (rolls : List Nat) (rating : Nat)
    (hlen : rolls.length = rating) (hpos : 1 ≤ rating) :
    (2 ≤ countSixes rolls → resistanceRollCost rolls = some (-1)) ∧
    (countSixes rolls < 2 → maxRoll rolls = 6 → resistanceRollCost rolls = some 0) ∧
    (maxRoll rolls < 6 →
      resistanceRollCost rolls = some (6 - (maxRoll rolls : Int))) := by
  cases rolls with
  | nil => simp at hlen; omega
  | cons r rs =>
    refine ⟨fun h2 => ?_, fun hlt h6 => ?_, fun hmax => ?_⟩
    · unfold resistanceRollCost
      rw [if_pos h2]
    · unfold resistanceRollCost
      rw [if_neg (by omega), if_pos h6]
    · have hz : countSixes (r :: rs) = 0 := countSixes_eq_zero _ hmax
      unfold resistanceRollCost
      rw [if_neg (by omega), if_neg (by omega)]

/-- C6 witness: two dice showing 4 and 2 cost exactly `6 - 4 = 2` stress. -/
theorem resistance_roll_cost_spec_witness :
    resistanceRollCost [4, 2] = some 2 :=
  (resistance_roll_cost_spec [4, 2] 2 rfl (by omega)).2.2 (by decide)

/-- C5 counterexample: with an effective pool of 0 the zero-dice rule takes
the lower of two dice and never checks for a critical, so the roll `[6, 6]`
— two sixes — yields a plain Success, not the Critical-flagged Success the
claim promises for every roll with two or more sixes. -/
theorem zero_pool_double_six_not_critical :
    (bitdActionRoll "Prowl" 0 [6, 6]).map MechanicsResult.resultType =
      some .success ∧
    2 ≤ countSixes [6, 6] ∧
    (bitdActionRoll "Prowl" 0 [6, 6]).map MechanicsResult.resultType ≠
      some .criticalSuccess := by decide

/-- C5 (amended): for a positive pool, two or more sixes yield the
crit-flagged Critical Success with empty resource costs; otherwise the
highest face grades 6 to Success (zero stress cost), 4-5 to Partial
Success, and at most 3 to Failure.  A pool of zero or less is resolved by
grading the lower of the two rolled dice with the same table and no
critical check. -/
theorem bitd_action_roll_grading (action : String) (pool : Int)
    (rolls : List Nat) (hne : rolls ≠ []) :
    (1 ≤ pool → 2 ≤ countSixes rolls →
      (bitdActionRoll action pool rolls).map
          (fun m => (m.resultType, m.resourceCosts, m.triggeredEffects)) =
        some (.criticalSuccess, [], ["暴击加成"]) ∧
      (bitdActionRoll action pool rolls).map
          (fun m => m.stateChanges.any (fun kv => kv.1 == "crit")) = some true) ∧
    (1 ≤ pool → countSixes rolls < 2 → maxRoll rolls = 6 →
      (bitdActionRoll action pool rolls).map
          (fun m => (m.resultType, m.resourceCosts)) =
        some (.success, [("stress", 0)])) ∧
    (1 ≤ pool → 4 ≤ maxRoll rolls → maxRoll rolls ≤ 5 →
      (bitdActionRoll action pool rolls).map MechanicsResult.resultType =
        some .partialSuccess) ∧
    (1 ≤ pool → maxRoll rolls ≤ 3 →
      (bitdActionRoll action pool rolls).map MechanicsResult.resultType =
        some .failure) ∧
    (pool ≤ 0 →
      bitdActionRoll action pool rolls =
        some (bitdGrade action rolls (minRoll rolls))) := by
  cases rolls with
  | nil => exact absurd rfl hne
  | cons r rs =>
    refine ⟨fun hp h2 => ?_, fun hp hlt h6 => ?_, fun hp h4 h5 => ?_,
      fun hp h3 => ?_, fun hp => ?_⟩
    · unfold bitdActionRoll
      rw [if_neg (by omega), if_pos h2]
      exact ⟨rfl, rfl⟩
    · unfold bitdActionRoll
      rw [if_neg (by omega), if_neg (by omega)]
      simp only [Option.map_some]
      unfold bitdGrade
      rw [if_pos h6]
      rfl
    · have hz : countSixes (r :: rs) = 0 := countSixes_eq_zero _ (by omega)
      unfold bitdActionRoll
      rw [if_neg (by omega), if_neg (by omega)]
      simp only [Option.map_some]
      unfold bitdGrade
      rw [if_neg (by omega), if_pos h4]
      rfl
    · have hz : countSixes (r :: rs) = 0 := countSixes_eq_zero _ (by omega)
      unfold bitdActionRoll
      rw [if_neg (by omega), if_neg (by omega)]
      simp only [Option.map_some]
      unfold bitdGrade
      rw [if_neg (by omega), if_neg (by omega)]
      rfl
    · unfold bitdActionRoll
      rw [if_pos hp]

/-- C5 witness: a pool of 2 rolling `[6, 6]` is the crit-flagged Critical
Success with empty costs. -/
theorem bitd_action_roll_grading_witness :
    (bitdActionRoll "Prowl" 2 [6, 6]).map
        (fun m => (m.resultType, m.resourceCosts, m.triggeredEffects)) =
      some (.criticalSuccess, [], ["暴击加成"]) :=
  ((bitd_action_roll_grading "Prowl" 2 [6, 6] (by decide)).1 (by omega)
    (by decide)).1

/-- C7 counterexample: `tick` accepts a negative amount, with which `filled`
drops below 0 and decreases — against the claimed `0 ≤ filled` invariant
and monotonicity for every `tick(k)` call. -/
theorem clock_tick_negative_amount :
    ((Clock.mk "危机" 4 2 "danger").tick (-3)).1.filled = -1 ∧
    ¬ (0 ≤ ((Clock.mk "危机" 4 2 "danger").tick (-3)).1.filled) ∧
    ((Clock.mk "危机" 4 2 "danger").tick (-3)).1.filled <
      (Clock.mk "危机" 4 2 "danger").filled := by decide

/-- C7 (amended): for every `tick(k)` with `k ≥ 0`, from a clock satisfying
`0 ≤ filled ≤ segments`: the invariant is preserved, `filled` never
decreases, the call returns true exactly when `filled + k` reaches or
exceeds the capacity, and once full a further tick leaves `filled`
unchanged and still returns true. -/
theorem clock_tick_spec (c : Clock) (k : Int) (hk : 0 ≤ k)
    (h0 : 0 ≤ c.filled) (hs : c.filled ≤ c.segments) :
    0 ≤ (c.tick k).1.filled ∧
    (c.tick k).1.filled ≤ c.segments ∧
    (c.tick k).1.segments = c.segments ∧
    c.filled ≤ (c.tick k).1.filled ∧
    ((c.tick k).2 = true ↔ c.segments ≤ c.filled + k) ∧
    (c.filled = c.segments →
      (c.tick k).1.filled = c.filled ∧ (c.tick k).2 = true) := by
  obtain ⟨nm, seg, fl, ct⟩ := c
  dsimp only at h0 hs ⊢
  unfold Clock.tick
  dsimp only
  simp only [decide_eq_true_eq]
  refine ⟨?_, ?_, ?_, ?_, ⟨fun h => ?_, fun h => ?_⟩, fun h => ⟨?_, ?_⟩⟩ <;>
    first | rfl | omega | trivial

/-- C7 witness: a 4-segment clock at 2 ticked by 2 reaches capacity and
reports completion. -/
theorem clock_tick_spec_witness :
    0 ≤ ((Clock.mk "钟" 4 2 "progress").tick 2).1.filled :=
  (clock_tick_spec (Clock.mk "钟" 4 2 "progress") 2 (by decide) (by decide)
    (by decide)).1

/-- C8 counterexample: `"d100"` is a valid notation under the claim's
grammar (dice count omitted, defaulting to 1) and the plugin resolver
accepts it, but the agent-tool `dice_roller` rejects it with the typed
error: its regex requires an explicit leading count. -/
theorem dice_roller_rejects_default_count :
    diceRoller (fun _ => 7) "d100" =
      .err ("Invalid dice expression: " ++ "d100") 0 ∧
    rollDice (fun _ => 7) "d100" = .ok [7] 0 7 := by decide

/-- C8 (amended): for every notation the resolver parses (die size
positive), the rolled list has length `N` and the total is the sum of the
rolls plus the modifier `K`, case- and space-insensitively; the plugin
resolver `roll_dice` defaults an omitted count to 1, while the agent-tool
`dice_roller` requires an explicit count and returns its typed error when
the count is omitted. -/
theorem dice_roll_length_total (s : String) (rng : Nat → Nat) (n m : Nat)
    (k : Int) :
    (parseDice s = some (n, m, k) → m ≠ 0 →
      rollDice rng s =
        .ok ((List.range n).map rng) k ((((List.range n).map rng).sum : Int) + k) ∧
      ((List.range n).map rng).length = n) ∧
    (parseDice s = some (n, m, k) → (normalizeExpr s).head? = some 'd' →
      n = 1) ∧
    (parseDiceTool s = some (n, m, k) → m ≠ 0 →
      diceRoller rng s =
        .ok ((List.range n).map rng) k ((((List.range n).map rng).sum : Int) + k) ∧
      ((List.range n).map rng).length = n) ∧
    ((normalizeExpr s).head? = some 'd' →
      diceRoller rng s =
        .err ("Invalid dice expression: " ++ String.mk (normalizeExpr s)) 0) := by
  refine ⟨fun h hm => ⟨rollDice_parsed rng s n m k h hm, by simp⟩,
    fun h hd => parseDice_default_count s n m k h hd,
    fun h hm => ⟨diceRoller_parsed rng s n m k h hm, by simp⟩,
    fun hd => diceRoller_err rng s (parseDiceTool_requires_count s hd)⟩

/-- C8 witness: `"2d6+3"` with injected rolls 1 and 2 yields the roll list
`[1, 2]` (length 2) and total `1 + 2 + 3 = 6`. -/
theorem dice_roll_length_total_witness :
    rollDice (fun i => i + 1) "2d6+3" = .ok [1, 2] 3 6 :=
  ((dice_roll_length_total "2d6+3" (fun i => i + 1) 2 6 3).1 (by decide)
    (by decide)).1

/-- C9 counterexample: `"2d0"` does not match the claim's grammar (the die
size must be positive), yet neither resolver returns the typed error: the
regex `\d+` accepts the die size 0 and `random.randint(1, 0)` then raises
`ValueError`. -/
theorem die_size_zero_raises :
    rollDice (fun _ => 1) "2d0" = .exn ∧
    diceRoller (fun _ => 1) "2d0" = .exn := by decide

/-- C9 (amended): for every ASCII string the resolvers' regex rejects, both
return the typed error value with total 0 and never raise; however a string
accepted by the regex with die size 0 and a positive dice count raises
instead of returning the error (the regex, unlike the claimed grammar,
admits die size 0). -/
theorem invalid_expr_typed_error (s : String) (rng : Nat → Nat)
    (hascii : ∀ c ∈ s.data, c.toNat ≤ 127) :
    (parseDice s = none →
      rollDice rng s =
        .err ("无效骰子表达式: " ++ String.mk (normalizeExpr s)) 0) ∧
    (parseDiceTool s = none →
      diceRoller rng s =
        .err ("Invalid dice expression: " ++ String.mk (normalizeExpr s)) 0) ∧
    (∀ n k, parseDice s = some (n, 0, k) → n ≠ 0 → rollDice rng s = .exn) :=
  ⟨fun h => rollDice_err rng s h,
   fun h => diceRoller_err rng s h,
   fun n k h hn => rollDice_exn rng s n k h hn⟩

/-- C9 witness: `"roll20"` matches nothing and yields the typed zeroed
error. -/
theorem invalid_expr_typed_error_witness :
    rollDice (fun _ => 1) "roll20" =
      .err ("无效骰子表达式: " ++ String.mk (normalizeExpr "roll20")) 0 :=
  (invalid_expr_typed_error "roll20" (fun _ => 1) (by decide)).1 (by decide)

/-- C1 counterexample: `finalize` resets the draft, the feedback and the
iteration counter, so a run forced through the 3-cycle cap by an
always-objecting checker ends in exactly the same caller-visible state as a
run whose first draft is cleanly approved — the forced approval is not
observable by the caller, against the claim. -/
theorem forced_approval_not_observable :
    (runAdvLoop (fun _ => "D") (fun _ => "OBJECTION: 越界") 3 ⟨[], "", "", 0⟩).1 =
      (runAdvLoop (fun _ => "D") (fun _ => "APPROVED") 3 ⟨[], "", "", 0⟩).1 ∧
    (runAdvLoop (fun _ => "D") (fun _ => "OBJECTION: 越界") 3 ⟨[], "", "", 0⟩).2 = 3 ∧
    (runAdvLoop (fun _ => "D") (fun _ => "APPROVED") 3 ⟨[], "", "", 0⟩).2 = 1 := by
  decide

/-- C1 (amended): entered at iteration 0 with nonempty drafts, the loop
runs exactly 3 drafting/checking cycles and force-finalizes when the
checker never approves, and finalizes after exactly `i` cycles when the
checker first approves on cycle `i ≤ 3`; in both cases `finalize` resets
the draft, the feedback and the iteration counter (leaving just the final
draft appended to the messages), so no forced-approval flag survives for
the caller. -/
theorem validation_loop_cycle_counts (draftOf : Nat → String)
    (check : String → String) (fuel : Nat) (ms : List String) (d f : String)
    (hf : 3 ≤ fuel) (hd : ∀ n, draftOf n ≠ "") :
    ((∀ n, strStartsWith (check (draftOf n)) "APPROVED" = false) →
      runAdvLoop draftOf check fuel ⟨ms, d, f, 0⟩ =
        (⟨ms ++ [draftOf 2], "", "", 0⟩, 3)) ∧
    (∀ i, 1 ≤ i → i ≤ 3 →
      strStartsWith (check (draftOf (i - 1))) "APPROVED" = true →
      (∀ j, j < i - 1 → strStartsWith (check (draftOf j)) "APPROVED" = false) →
      runAdvLoop draftOf check fuel ⟨ms, d, f, 0⟩ =
        (⟨ms ++ [draftOf (i - 1)], "", "", 0⟩, i)) := by
  constructor
  · intro hc
    exact runAdvLoop_objecting draftOf check fuel hf ms d f hd
      (fun n => by simp [hc n])
  · intro i hi1 hi3 happ hobj
    exact runAdvLoop_first_approval draftOf check fuel hf ms d f i hi1 hi3 hd
      happ (fun j hj => by simp [hobj j hj])

/-- C1 witness: a constant checker objection runs the three cycles and ends
reset, with the third draft in the messages. -/
theorem validation_loop_cycle_counts_witness :
    runAdvLoop (fun _ => "D") (fun _ => "OBJECTION: 过度行动") 3 ⟨[], "", "", 0⟩ =
      (⟨["D"], "", "", 0⟩, 3) :=
  (validation_loop_cycle_counts (fun _ => "D") (fun _ => "OBJECTION: 过度行动")
    3 [] "" "" (by omega)
    (fun n => by show ("D" : String) ≠ ""; decide)).1
    (fun n => by show strStartsWith "OBJECTION: 过度行动" "APPROVED" = false; decide)

/-- C2 counterexample: a verdict that parses neither as `APPROVED` nor as an
objection is routed back to the storyteller (treated as an objection), not
auto-approved: under the cap `route_by_verdict` sends it to `"storyteller"`,
and a persistently malformed checker runs all 3 cycles instead of
finalizing at the first check as the claimed fail-open policy would. -/
theorem malformed_verdict_loops_back :
    routeByVerdict ⟨[], "一段草稿", "看起来没问题", 1⟩ = "storyteller" ∧
    (runAdvLoop (fun _ => "D") (fun _ => "不合规范的输出") 3 ⟨[], "", "", 0⟩).2 = 3 := by
  decide

/-- C2 (amended): a checker verdict that does not start with `APPROVED`
(malformed output included) is treated as an objection: while the iteration
count is under 3 the loop routes back to the storyteller, and a
persistently unparseable verdict reaches `finalize` only through the
3-cycle cap. -/
theorem malformed_verdict_fail_closed (s : GState)
    (h3 : s.adversarialIteration < 3)
    (hm : strStartsWith s.lawyerFeedback "APPROVED" = false) :
    routeByVerdict s = "storyteller" ∧
    (∀ (draftOf : Nat → String) (check : String → String) (fuel : Nat)
        (ms : List String) (d f : String),
      3 ≤ fuel → (∀ n, draftOf n ≠ "") →
      (∀ n, strStartsWith (check (draftOf n)) "APPROVED" = false) →
      runAdvLoop draftOf check fuel ⟨ms, d, f, 0⟩ =
        (⟨ms ++ [draftOf 2], "", "", 0⟩, 3)) := by
  constructor
  · unfold routeByVerdict
    rw [if_neg (by omega), if_neg (by simp [hm])]
  · intro draftOf check fuel ms d f hf hd hc
    exact runAdvLoop_objecting draftOf check fuel hf ms d f hd
      (fun n => by simp [hc n])

/-- C2 witness: a malformed verdict at iteration 1 routes back to the
storyteller. -/
theorem malformed_verdict_fail_closed_witness :
    routeByVerdict ⟨[], "一段草稿", "不知所云", 1⟩ = "storyteller" :=
  (malformed_verdict_fail_closed ⟨[], "一段草稿", "不知所云", 1⟩ (by decide)
    (by decide)).1

/-- C3 counterexample: `process_state_update` starts from a shallow
`copy()`, so the nested `player_stats` object stays shared with the
caller: after the heist update on `{"player_stats": {"stress": 0}}` with
cost 2, the CALLER's own state reads stress 2; on a trauma (stress 8, cost
1) the consumed result's `triggered_effects` list has grown; and the horror
update likewise rewrites the caller's `player_stats["sanity"]`. -/
theorem state_update_mutates_shared_objects :
    (bitdProcessStateUpdate (layoutA 0) 2 (mrStress 2)).map
        (fun r => stressView r.1 2) ≠ some (stressView (layoutA 0) 2) ∧
    (bitdProcessStateUpdate (layoutA 8) 2 (mrStress 1)).map
        (fun r => strListView r.1 3) ≠ some (strListView (layoutA 8) 3) ∧
    (cocProcessStateUpdate layoutC 2 mrSanity).map
        (fun r => sanityView r.1 2) ≠ some (sanityView layoutC 2) := by
  decide

/-- C3 (amended): the update returns a fresh top-level dictionary (address
4, not the caller's address 2) and leaves the caller's top-level key set
intact, but the copy is shallow: the returned dictionary shares the
`player_stats` object with the caller, the stress write is visible through
the caller's own state, and on a trauma the consumed `MechanicsResult`'s
`triggered_effects` list is mutated — so re-invocation is only safe while
no nested structure was touched, which the stress path always does. -/
theorem state_update_shallow_copy_semantics (s c : Int) :
    (bitdProcessStateUpdate (layoutA s) 2 (mrStress c)).map
        (fun r => r.2) = some 4 ∧
    (bitdProcessStateUpdate (layoutA s) 2 (mrStress c)).map
        (fun r => r.1.dictEntries 2) = some (some [("player_stats", 1)]) ∧
    (bitdProcessStateUpdate (layoutA s) 2 (mrStress c)).map
        (fun r => r.1.dictEntries 4) = some (some [("player_stats", 1)]) ∧
    (bitdProcessStateUpdate (layoutA s) 2 (mrStress c)).map
        (fun r => stressView r.1 2) =
      some (some (if 9 ≤ s + c then 0 else s + c)) ∧
    (bitdProcessStateUpdate (layoutA s) 2 (mrStress c)).map
        (fun r => strListView r.1 3) =
      some (some (if 9 ≤ s + c then ["获得创伤"] else [])) ∧
    (cocProcessStateUpdate layoutC 2 mrSanity).map
        (fun r => sanityView r.1 2) = some (some 48) := by
  rw [bitd_runA]
  rcases le_or_lt 9 (s + c) with h | h
  · rw [if_pos h, if_pos h, if_pos h]
    exact ⟨rfl, rfl, rfl, rfl, rfl, by decide⟩
  · rw [if_neg (not_le.mpr h), if_neg (not_le.mpr h), if_neg (not_le.mpr h)]
    exact ⟨rfl, rfl, rfl, rfl, rfl, by decide⟩

/-- C10: on the heist stress path, for every previous stress `s` and cost
`c`, the returned state's stress is `s + c` when `s + c < 9`, and
otherwise stress resets to 0 with one trauma label appended to the
character's trauma list — created when absent (`layoutA`), appended to the
existing labels when present (`layoutB`) — and the effect `获得创伤`
recorded in the result's `triggered_effects`; the returned stress is in
every case strictly below 9. -/
theorem stress_overflow_resets_and_adds_trauma (s c : Int) :
    (bitdProcessStateUpdate (layoutA s) 2 (mrStress c)).map
        (fun r => stressView r.1 r.2) =
      some (some (if 9 ≤ s + c then 0 else s + c)) ∧
    (if 9 ≤ s + c then (0 : Int) else s + c) < 9 ∧
    (bitdProcessStateUpdate (layoutA s) 2 (mrStress c)).map
        (fun r => traumaView r.1 r.2) =
      some (some (if 9 ≤ s + c then some ["待定创伤"] else none)) ∧
    (bitdProcessStateUpdate (layoutB s) 4 (mrStressB c)).map
        (fun r => traumaView r.1 r.2) =
      some (some (some (if 9 ≤ s + c then ["旧创伤", "待定创伤"] else ["旧创伤"]))) ∧
    (bitdProcessStateUpdate (layoutA s) 2 (mrStress c)).map
        (fun r => strListView r.1 3) =
      some (some (if 9 ≤ s + c then ["获得创伤"] else [])) := by
  rw [bitd_runA, bitd_runB]
  rcases le_or_lt 9 (s + c) with h | h
  · rw [if_pos h, if_pos h, if_pos h, if_pos h, if_pos h, if_pos h]
    exact ⟨rfl, by omega, rfl, rfl, rfl⟩
  · rw [if_neg (not_le.mpr h), if_neg (not_le.mpr h), if_neg (not_le.mpr h),
      if_neg (not_le.mpr h), if_neg (not_le.mpr h), if_neg (not_le.mpr h)]
    exact ⟨rfl, by omega, rfl, rfl, rfl⟩

end Logos
